import Mathlib

/-!
Verification of the name normalization and classification pipeline of the
`name-address-streamlit-app` repository.  The Python sources are embedded
shallowly: each Lean definition mirrors one Python function from
`src/name_address_validator` (the service-layer pipeline in
`services/validation_service.py`, the dictionary loader in
`utils/dictionary_loader.py`, and the secondary name validator in
`validators/name_validator.py`).  Strings are modelled as Lean `String`
(Python `str` on the relevant ASCII inputs), floats that are only ever
assigned as literal constants and compared for equality are modelled as `ℚ`.
-/

/-! ## Python string primitives -/

/-- Python `str.strip()`: drop leading and trailing whitespace. -/
def pyStrip (s : String) : String :=
  String.mk (((s.data.dropWhile Char.isWhitespace).reverse.dropWhile Char.isWhitespace).reverse)

/-- Python `str.lower()` on ASCII data. -/
def pyLower (s : String) : String :=
  String.mk (s.data.map Char.toLower)

/-- Python `str.upper()` on ASCII data. -/
def pyUpper (s : String) : String :=
  String.mk (s.data.map Char.toUpper)

/-- Helper for `pySplit`: walk the characters, accumulating the current word
(reversed); whitespace closes the current word. -/
def splitWsAux : List Char → List Char → List String
  | [], acc => if acc = [] then [] else [String.mk acc.reverse]
  | c :: cs, acc =>
    if c.isWhitespace then
      (if acc = [] then [] else [String.mk acc.reverse]) ++ splitWsAux cs []
    else
      splitWsAux cs (c :: acc)

/-- Python `str.split()` with no argument: split on runs of whitespace,
discarding empty pieces. -/
def pySplit (s : String) : List String :=
  splitWsAux s.data []

/-- Python `str.rstrip('.')`: drop trailing period characters. -/
def rstripDot (s : String) : String :=
  String.mk ((s.data.reverse.dropWhile (fun c => c = '.')).reverse)

/-- List-level `startsWith`. -/
def listStartsWith : List Char → List Char → Bool
  | _, [] => true
  | [], _ :: _ => false
  | c :: cs, p :: ps => c = p && listStartsWith cs ps

/-- Python `pat in s` (substring containment). -/
def strContains (s pat : String) : Bool :=
  (List.range (s.data.length + 1)).any (fun i => listStartsWith (s.data.drop i) pat.data)

/-- Python `s.endswith(suf)`. -/
def pyEndsWith (s suf : String) : Bool :=
  listStartsWith s.data.reverse suf.data.reverse

/-- Python `s.endswith((suf₁, suf₂, ...))`. -/
def pyEndsWithAny (s : String) (sufs : List String) : Bool :=
  sufs.any (fun suf => pyEndsWith s suf)

/-- Helper for `pyTitle`: the Bool records whether the previous character was
alphabetic. -/
def pyTitleAux : List Char → Bool → List Char
  | [], _ => []
  | c :: cs, prevAlpha =>
    if c.isAlpha then
      (if prevAlpha then c.toLower else c.toUpper) :: pyTitleAux cs true
    else
      c :: pyTitleAux cs false

/-- Python `str.title()` on ASCII data: upper-case each letter that follows a
non-letter, lower-case the rest. -/
def pyTitle (s : String) : String :=
  String.mk (pyTitleAux s.data false)

/-! ## Dictionary Store (`utils/dictionary_loader.py`, class
`NameDictionaryLoader`).  The mutable object is modelled as a record of its
four name sets (as lists) and the `loaded` flag; `load_dictionaries` becomes a
pure function from the list of CSV files (filename plus first column, already
`dropna`-ed to strings) to a store. -/

structure DictStore where
  first_names : List String
  last_names : List String
  male_names : List String
  female_names : List String
  loaded : Bool
deriving DecidableEq

/-- One CSV reference file: its filename and the string values of its first
column. -/
structure CsvFile where
  filename : String
  firstColumn : List String
deriving DecidableEq

/-- `NameDictionaryLoader._is_valid_name`:
`name and len(name) > 1 and name != 'nan' and re.match(r"^[a-z\-\']+$", name)`. -/
def isValidNameEntry (name : String) : Bool :=
  name ≠ "" && name.length > 1 && name ≠ "nan" &&
    name.data.all (fun c => ('a' ≤ c && c ≤ 'z') || c = '-' || c = '\'')

/-- The body of the per-file loop of `load_dictionaries`: lower-case and trim
the first column, keep the valid entries, and bucket them by the filename
substring heuristic (`first` / `last` / both). -/
def processCsvFile (store : DictStore) (f : CsvFile) : DictStore :=
  let names := f.firstColumn.map (fun s => pyLower (pyStrip s))
  let valid_names := names.filter isValidNameEntry
  let filename := pyLower f.filename
  if strContains filename "first" then
    { store with first_names := store.first_names ++ valid_names }
  else if strContains filename "last" then
    { store with last_names := store.last_names ++ valid_names }
  else
    { store with first_names := store.first_names ++ valid_names,
                 last_names := store.last_names ++ valid_names }

/-- `NameDictionaryLoader.load_dictionaries` over a list of CSV files: start
from the empty store, process each file, and set `loaded` iff at least one
name landed in either set. -/
def loadDictionaries (files : List CsvFile) : DictStore :=
  let s := files.foldl processCsvFile
    { first_names := [], last_names := [], male_names := [], female_names := [],
      loaded := false }
  { s with loaded := s.first_names ≠ [] || s.last_names ≠ [] }

/-- `NameDictionaryLoader.is_valid_first_name`. -/
def DictStore.is_valid_first_name (store : DictStore) (name : String) : Bool :=
  if !store.loaded then
    true
  else
    store.first_names.contains (pyLower (pyStrip name))

/-- `NameDictionaryLoader.is_valid_last_name`. -/
def DictStore.is_valid_last_name (store : DictStore) (name : String) : Bool :=
  if !store.loaded then
    true
  else
    store.last_names.contains (pyLower (pyStrip name))

/-- `NameDictionaryLoader.predict_gender`. -/
def DictStore.predict_gender (store : DictStore) (first_name : String) : String :=
  if first_name = "" || !store.loaded then
    ""
  else
    let name_clean := pyLower (pyStrip first_name)
    if store.male_names.contains name_clean then "M"
    else if store.female_names.contains name_clean then "F"
    else if pyEndsWithAny name_clean ["a", "ia", "ana", "ella"] then "F"
    else if pyEndsWithAny name_clean ["er", "on", "an"] then "M"
    else ""

/-! ## Secondary name validator (`validators/name_validator.py`, class
`EnhancedNameValidator`, method `validate`). -/

structure NameValidationResult where
  valid : Bool
  confidence : ℚ
  errors : List String
  warnings : List String
  normalized_first : String
  normalized_last : String
deriving DecidableEq

/-- `EnhancedNameValidator.validate(first_name, last_name)`: required-field
check (each missing trimmed field accumulates one error), `valid` iff no
errors, confidence `0.8` / `0.0`, and title-cased normalized fields.  The
validator's `suggestions` dict is always empty in the source and is omitted. -/
def nameValidatorValidate (first_name last_name : String) : NameValidationResult :=
  let errors :=
    (if pyStrip first_name = "" then ["First name required"] else []) ++
    (if pyStrip last_name = "" then ["Last name required"] else [])
  let valid := errors.isEmpty
  { valid := valid
    confidence := if valid then 0.8 else 0.0
    errors := errors
    warnings := []
    normalized_first := if first_name = "" then "" else pyTitle (pyStrip first_name)
    normalized_last := if last_name = "" then "" else pyTitle (pyStrip last_name) }

/-! ## Service-layer pipeline (`services/validation_service.py`).  A record of
the API payload, the structured result, and the functions
`_detect_organization_api`, `_parse_individual_name_api`,
`_predict_gender_api`, `_process_api_record` and `validate_api_records`.
The service's optional collaborators are passed explicitly: `hasValidator`
stands for `self.name_validator is not None`
(`is_name_validation_available`), and `dictLoader` for the standardizer's
dictionary loader probed by `_predict_gender_api` (`none` when absent). -/

structure ApiRecord where
  uniqueid : String
  name : String
  gender : String
  party_type : String
  parseInd : String
deriving DecidableEq

/-- The three person-name components produced by the name parser. -/
structure NameComponents where
  first_name : String
  last_name : String
  middle_name : String
deriving DecidableEq

/-- The `parsed_components` dict of a result.  Keys that a given branch does
not set are modelled as `""` (the Python dict simply lacks them). -/
structure ParsedDict where
  first_name : String
  last_name : String
  middle_name : String
  organization_name : String
  original_name : String
deriving DecidableEq

/-- The `suggestions` dict of a result; keys never set are `""`. -/
structure SuggestionsDict where
  gender_prediction : String
  party_type_prediction : String
deriving DecidableEq

structure ApiResult where
  uniqueid : String
  name : String
  gender : String
  party_type : String
  parse_indicator : String
  validation_status : String
  confidence_score : ℚ
  parsed_components : ParsedDict
  suggestions : SuggestionsDict
  errors : List String
  warnings : List String
deriving DecidableEq

/-- The `org_indicators` keyword list of `_detect_organization_api`. -/
def orgIndicators : List String :=
  ["llc", "inc", "corp", "company", "ltd", "co.", "corporation",
   "hospital", "medical", "clinic", "center", "services", "solutions",
   "group", "partners", "associates", "firm", "office", "bank",
   "trust", "foundation", "institute", "university", "college",
   "school", "church", "ministry", "department", "agency"]

/-- `_detect_organization_api(name, party_type_hint)`: an upper-cased hint of
`O` / `I` short-circuits; otherwise substring detection over the keyword
list on the lower-cased name. -/
def detectOrganizationApi (name party_type_hint : String) : Bool :=
  if pyUpper party_type_hint = "O" then true
  else if pyUpper party_type_hint = "I" then false
  else
    let name_lower := pyLower name
    orgIndicators.any (fun indicator => strContains name_lower indicator)

/-- The dropped-token lists of `_parse_individual_name_api`. -/
def titlesList : List String :=
  ["mr", "mrs", "ms", "miss", "dr", "prof", "rev", "judge", "senator", "captain"]

def suffixesList : List String :=
  ["jr", "sr", "iii", "iv", "md", "phd", "cpa", "esq"]

/-- Positional assignment of the filtered tokens (the tail of
`_parse_individual_name_api`). -/
def assignComponents : List String → NameComponents
  | [] => ⟨"", "", ""⟩
  | [p] => ⟨p, "", ""⟩
  | [p, q] => ⟨p, q, ""⟩
  | p :: rest => ⟨p, rest.getLastD "", String.intercalate " " rest.dropLast⟩

/-- `_parse_individual_name_api(full_name)`: empty/whitespace input yields
all-empty components; otherwise split on whitespace, drop tokens whose
lower-cased, trailing-period-stripped form is a title or suffix, and assign
the remainder positionally. -/
def parseIndividualNameApi (full_name : String) : NameComponents :=
  if pyStrip full_name = "" then ⟨"", "", ""⟩
  else
    let name := pyStrip full_name
    let parts := pySplit name
    let clean_parts := parts.filter (fun part =>
      let part_lower := rstripDot (pyLower part)
      !(titlesList.contains part_lower) && !(suffixesList.contains part_lower))
    assignComponents clean_parts

/-- The parsing rule exactly as the specification words it (drop every
title/suffix token, then assign the remaining tokens positionally), stated
independently for comparison against `parseIndividualNameApi`. -/
def claimedParse (full_name : String) : NameComponents :=
  let kept := (pySplit (pyStrip full_name)).filter (fun t =>
    !(titlesList.contains (rstripDot (pyLower t))) &&
    !(suffixesList.contains (rstripDot (pyLower t))))
  match kept with
  | [] => ⟨"", "", ""⟩
  | [a] => ⟨a, "", ""⟩
  | [a, b] => ⟨a, b, ""⟩
  | a :: rest => ⟨a, rest.getLastD "", String.intercalate " " rest.dropLast⟩

/-- The common-name fallback sets of `_predict_gender_api`. -/
def commonFemale : List String :=
  ["mary", "jennifer", "patricia", "linda", "barbara", "susan", "jessica",
   "sarah", "karen", "nancy"]

def commonMale : List String :=
  ["james", "john", "robert", "michael", "william", "david", "richard",
   "charles", "joseph", "thomas"]

/-- `_predict_gender_api(first_name)`: delegate to the dictionary loader when
the standardizer wires one in, else the service's own suffix heuristic with
the common-name sets. -/
def predictGenderApi (dictLoader : Option DictStore) (first_name : String) : String :=
  if first_name = "" then ""
  else
    match dictLoader with
    | some loader => loader.predict_gender first_name
    | none =>
      let name_lower := pyLower first_name
      if pyEndsWithAny name_lower ["a", "ia", "ana", "ella", "ina", "lyn", "lynn", "elle"] then "F"
      else if pyEndsWithAny name_lower ["er", "on", "an", "en", "son"] then "M"
      else if commonFemale.contains name_lower then "F"
      else if commonMale.contains name_lower then "M"
      else ""

def emptyParsed : ParsedDict := ⟨"", "", "", "", ""⟩

def emptySuggestions : SuggestionsDict := ⟨"", ""⟩

/-- The result dict as `_process_api_record` initializes it, before any
branch runs. -/
def initResult (record : ApiRecord) : ApiResult :=
  { uniqueid := record.uniqueid
    name := pyStrip record.name
    gender := pyStrip record.gender
    party_type := pyStrip record.party_type
    parse_indicator := pyStrip record.parseInd
    validation_status := "valid"
    confidence_score := 0
    parsed_components := emptyParsed
    suggestions := emptySuggestions
    errors := []
    warnings := [] }

/-- The organization branch of `_process_api_record`. -/
def orgBranch (result0 : ApiResult) (name : String) : ApiResult :=
  { result0 with
    party_type := "O"
    gender := ""
    parse_indicator := "N"
    parsed_components := { emptyParsed with organization_name := name }
    confidence_score := 0.9 }

/-- The validation block of the individual-with-parsing branch of
`_process_api_record`: with the `EnhancedNameValidator` present, delegate;
without it, basic validation. -/
def individualValidate (hasValidator : Bool) (r1 : ApiResult)
    (parsed : NameComponents) : ApiResult :=
  if hasValidator then
    if parsed.first_name ≠ "" ∨ parsed.last_name ≠ "" then
      let validation_result := nameValidatorValidate parsed.first_name parsed.last_name
      if validation_result.valid then
        { r1 with validation_status := "valid"
                  confidence_score := validation_result.confidence }
      else
        { r1 with validation_status := "warning"
                  confidence_score := 0.4
                  warnings := r1.warnings ++ validation_result.errors }
    else
      { r1 with validation_status := "invalid"
                errors := r1.errors ++ ["Could not parse name into valid components"]
                confidence_score := 0.2 }
  else
    if parsed.first_name ≠ "" ∨ parsed.last_name ≠ "" then
      { r1 with validation_status := "valid", confidence_score := 0.7 }
    else
      { r1 with validation_status := "invalid"
                errors := r1.errors ++ ["Could not parse name into valid components"]
                confidence_score := 0.2 }

/-- The gender-prediction block of `_process_api_record`. -/
def genderStep (dictLoader : Option DictStore) (validate_gender : Bool)
    (gender_hint : String) (parsed : NameComponents) (r2 : ApiResult) : ApiResult :=
  if validate_gender ∧ gender_hint = "" ∧ parsed.first_name ≠ "" then
    let predicted_gender := predictGenderApi dictLoader parsed.first_name
    if predicted_gender ≠ "" then
      { r2 with gender := predicted_gender
                suggestions := { r2.suggestions with gender_prediction := predicted_gender } }
    else r2
  else r2

/-- The party-type-suggestion block of `_process_api_record`. -/
def partyTypeStep (validate_party_type : Bool) (party_type_hint : String)
    (r : ApiResult) : ApiResult :=
  if validate_party_type ∧ party_type_hint = "" then
    { r with suggestions := { r.suggestions with party_type_prediction := r.party_type } }
  else r

/-- `_process_api_record(record, ...)`. -/
def processApiRecord (hasValidator : Bool) (dictLoader : Option DictStore)
    (_include_suggestions _detailed_analysis validate_gender validate_party_type : Bool)
    (record : ApiRecord) : ApiResult :=
  let name := pyStrip record.name
  let gender_hint := pyStrip record.gender
  let party_type_hint := pyStrip record.party_type
  let parse_ind := pyStrip record.parseInd
  let result0 := initResult record
  let is_org := detectOrganizationApi name party_type_hint
  let result1 :=
    if is_org then
      orgBranch result0 name
    else
      let r0 := { result0 with party_type := "I" }
      if pyUpper parse_ind = "Y" ∨ parse_ind = "" then
        let parsed := parseIndividualNameApi name
        let r1 := { r0 with
          parsed_components :=
            { emptyParsed with
              first_name := parsed.first_name
              last_name := parsed.last_name
              middle_name := parsed.middle_name }
          parse_indicator := "Y" }
        genderStep dictLoader validate_gender gender_hint parsed
          (individualValidate hasValidator r1 parsed)
      else
        { r0 with
          parse_indicator := "N"
          parsed_components := { emptyParsed with original_name := name }
          confidence_score := 0.6 }
  partyTypeStep validate_party_type party_type_hint result1

/-- The intermediate result `r1` of the individual-with-parsing branch,
spelled out for use in statements. -/
def parsedInitResult (record : ApiRecord) : ApiResult :=
  { initResult record with
    party_type := "I"
    parse_indicator := "Y"
    parsed_components :=
      { emptyParsed with
        first_name := (parseIndividualNameApi (pyStrip record.name)).first_name
        last_name := (parseIndividualNameApi (pyStrip record.name)).last_name
        middle_name := (parseIndividualNameApi (pyStrip record.name)).middle_name } }

/-- The per-record `except`-handler of `validate_api_records`: a caught
exception becomes an error result carrying the message as sole error. -/
def apiErrorResult (record : ApiRecord) (msg : String) : ApiResult :=
  { uniqueid := record.uniqueid, name := record.name, gender := "",
    party_type := "", parse_indicator := "", validation_status := "error",
    confidence_score := 0, parsed_components := emptyParsed,
    suggestions := emptySuggestions, errors := [msg], warnings := [] }

/-- The body of the per-record loop of `validate_api_records`: the two
`ValueError`s raised by the record-format checks are caught at the record
boundary and converted by `apiErrorResult`. -/
def recordStep (hasValidator : Bool) (dictLoader : Option DictStore)
    (include_suggestions detailed_analysis validate_gender validate_party_type : Bool)
    (record : ApiRecord) : ApiResult :=
  if record.uniqueid = "" then apiErrorResult record "uniqueid is required"
  else if record.name = "" then apiErrorResult record "name is required"
  else
    processApiRecord hasValidator dictLoader include_suggestions detailed_analysis
      validate_gender validate_party_type record

structure ApiResponse where
  status : String
  processed_count : Nat
  successful_count : Nat
  results : List ApiResult
deriving DecidableEq

/-- `validate_api_records(records, ...)` (timing and timestamp fields
omitted). -/
def validateApiRecords (hasValidator : Bool) (dictLoader : Option DictStore)
    (include_suggestions detailed_analysis validate_gender validate_party_type : Bool)
    (records : List ApiRecord) : ApiResponse :=
  let results := records.map (recordStep hasValidator dictLoader include_suggestions
    detailed_analysis validate_gender validate_party_type)
  { status := "success"
    processed_count := results.length
    successful_count := (results.filter (fun r => r.validation_status ≠ "error")).length
    results := results }

/-! ## Helper lemmas -/

theorem pyStrip_empty : pyStrip "" = "" := rfl

theorem pyTitle_empty : pyTitle "" = "" := rfl

/-- A character in the regex class `[a-z\-']` is fixed by `Char.toLower`. -/
theorem char_class_toLower_fixed (c : Char)
    (h : ('a' ≤ c ∧ c ≤ 'z') ∨ c = '-' ∨ c = '\'') : c.toLower = c := by
  unfold Char.toLower
  simp only []
  rw [if_neg]
  rintro ⟨hge, hle⟩
  rcases h with ⟨h1, _⟩ | h | h
  · have h1' : 97 ≤ c.toNat := h1
    omega
  · subst h; simp at hge hle
  · subst h; simp at hge hle

theorem map_toLower_fixed (l : List Char)
    (h : ∀ c ∈ l, ('a' ≤ c ∧ c ≤ 'z') ∨ c = '-' ∨ c = '\'') :
    l.map Char.toLower = l := by
  induction l with
  | nil => rfl
  | cons c cs ih =>
    simp only [List.map_cons]
    rw [char_class_toLower_fixed c (h c (by simp)), ih (fun x hx => h x (by simp [hx]))]

theorem listStartsWith_single {l : List Char} {x : Char} {xs : List Char}
    (h : listStartsWith l (x :: xs) = true) : listStartsWith l [x] = true := by
  cases l with
  | nil => simp [listStartsWith] at h
  | cons c cs =>
    simp only [listStartsWith, Bool.and_eq_true] at h ⊢
    simp [h.1]

theorem endsWith_ia {s : String} (h : pyEndsWith s "ia" = true) :
    pyEndsWith s "a" = true := by
  have h' : listStartsWith s.data.reverse ['a', 'i'] = true := h
  exact listStartsWith_single h'

theorem endsWith_ana {s : String} (h : pyEndsWith s "ana" = true) :
    pyEndsWith s "a" = true := by
  have h' : listStartsWith s.data.reverse ['a', 'n', 'a'] = true := h
  exact listStartsWith_single h'

theorem endsWith_ella {s : String} (h : pyEndsWith s "ella" = true) :
    pyEndsWith s "a" = true := by
  have h' : listStartsWith s.data.reverse ['a', 'l', 'l', 'e'] = true := h
  exact listStartsWith_single h'

/-- The dictionary loader's female suffix list collapses to its first entry:
`ia`, `ana` and `ella` all end in `a`. -/
theorem endsWithAny_female_eq (s : String) :
    pyEndsWithAny s ["a", "ia", "ana", "ella"] = pyEndsWith s "a" := by
  simp only [pyEndsWithAny, List.any_cons, List.any_nil, Bool.or_false]
  cases hb : pyEndsWith s "a"
  · have hia : pyEndsWith s "ia" = false := by
      cases h2 : pyEndsWith s "ia"
      · rfl
      · have := endsWith_ia h2; rw [hb] at this; exact absurd this (by decide)
    have hana : pyEndsWith s "ana" = false := by
      cases h2 : pyEndsWith s "ana"
      · rfl
      · have := endsWith_ana h2; rw [hb] at this; exact absurd this (by decide)
    have hella : pyEndsWith s "ella" = false := by
      cases h2 : pyEndsWith s "ella"
      · rfl
      · have := endsWith_ella h2; rw [hb] at this; exact absurd this (by decide)
    simp [hia, hana, hella]
  · simp

/-- Entries contributed to a store by one CSV file either were already present
or passed `_is_valid_name`. -/
theorem mem_processCsvFile (store : DictStore) (f : CsvFile) (n : String)
    (h : n ∈ (processCsvFile store f).first_names ∨
         n ∈ (processCsvFile store f).last_names) :
    (n ∈ store.first_names ∨ n ∈ store.last_names) ∨ isValidNameEntry n = true := by
  simp only [processCsvFile] at h
  split at h
  · rcases h with h | h
    · rcases List.mem_append.mp h with h' | h'
      · exact Or.inl (Or.inl h')
      · exact Or.inr (List.mem_filter.mp h').2
    · exact Or.inl (Or.inr h)
  · split at h
    · rcases h with h | h
      · exact Or.inl (Or.inl h)
      · rcases List.mem_append.mp h with h' | h'
        · exact Or.inl (Or.inr h')
        · exact Or.inr (List.mem_filter.mp h').2
    · rcases h with h | h <;> rcases List.mem_append.mp h with h' | h'
      · exact Or.inl (Or.inl h')
      · exact Or.inr (List.mem_filter.mp h').2
      · exact Or.inl (Or.inr h')
      · exact Or.inr (List.mem_filter.mp h').2

theorem foldl_processCsvFile_invariant (files : List CsvFile) (store : DictStore)
    (h : ∀ m : String, (m ∈ store.first_names ∨ m ∈ store.last_names) →
      isValidNameEntry m = true) :
    ∀ m : String,
      (m ∈ (files.foldl processCsvFile store).first_names ∨
       m ∈ (files.foldl processCsvFile store).last_names) →
      isValidNameEntry m = true := by
  induction files generalizing store with
  | nil => exact h
  | cons f fs ih =>
    intro m hm
    refine ih (processCsvFile store f) ?_ m hm
    intro k hk
    rcases mem_processCsvFile store f k hk with h' | h'
    · exact h k h'
    · exact h'

/-- `partyTypeStep` only touches `suggestions`. -/
theorem partyTypeStep_fields (b : Bool) (hint : String) (r : ApiResult) :
    (partyTypeStep b hint r).validation_status = r.validation_status ∧
    (partyTypeStep b hint r).confidence_score = r.confidence_score ∧
    (partyTypeStep b hint r).party_type = r.party_type ∧
    (partyTypeStep b hint r).gender = r.gender ∧
    (partyTypeStep b hint r).parse_indicator = r.parse_indicator ∧
    (partyTypeStep b hint r).parsed_components = r.parsed_components ∧
    (partyTypeStep b hint r).warnings = r.warnings ∧
    (partyTypeStep b hint r).errors = r.errors := by
  unfold partyTypeStep
  split <;> exact ⟨rfl, rfl, rfl, rfl, rfl, rfl, rfl, rfl⟩

/-- `genderStep` only touches `gender` and `suggestions`. -/
theorem genderStep_fields (dl : Option DictStore) (vg : Bool) (gh : String)
    (parsed : NameComponents) (r : ApiResult) :
    (genderStep dl vg gh parsed r).validation_status = r.validation_status ∧
    (genderStep dl vg gh parsed r).confidence_score = r.confidence_score ∧
    (genderStep dl vg gh parsed r).party_type = r.party_type ∧
    (genderStep dl vg gh parsed r).parse_indicator = r.parse_indicator ∧
    (genderStep dl vg gh parsed r).warnings = r.warnings ∧
    (genderStep dl vg gh parsed r).errors = r.errors := by
  unfold genderStep
  split
  · simp only []
    split <;> exact ⟨rfl, rfl, rfl, rfl, rfl, rfl⟩
  · exact ⟨rfl, rfl, rfl, rfl, rfl, rfl⟩

/-- `individualValidate` only touches status, confidence, errors and
warnings. -/
theorem individualValidate_fields (hv : Bool) (r1 : ApiResult)
    (parsed : NameComponents) :
    (individualValidate hv r1 parsed).party_type = r1.party_type ∧
    (individualValidate hv r1 parsed).gender = r1.gender ∧
    (individualValidate hv r1 parsed).parse_indicator = r1.parse_indicator ∧
    (individualValidate hv r1 parsed).parsed_components = r1.parsed_components := by
  unfold individualValidate
  split
  · split
    · simp only []
      split <;> exact ⟨rfl, rfl, rfl, rfl⟩
    · exact ⟨rfl, rfl, rfl, rfl⟩
  · split <;> exact ⟨rfl, rfl, rfl, rfl⟩

/-- Basic validation without the name validator, parsable name. -/
theorem individualValidate_noVal (r1 : ApiResult) (parsed : NameComponents)
    (hNE : parsed.first_name ≠ "" ∨ parsed.last_name ≠ "") :
    individualValidate false r1 parsed =
      { r1 with validation_status := "valid", confidence_score := 0.7 } := by
  unfold individualValidate
  rw [if_neg (by simp), if_pos hNE]

/-- Delegation to the name validator, valid result. -/
theorem individualValidate_val_valid (r1 : ApiResult) (parsed : NameComponents)
    (hNE : parsed.first_name ≠ "" ∨ parsed.last_name ≠ "")
    (hv : (nameValidatorValidate parsed.first_name parsed.last_name).valid = true) :
    individualValidate true r1 parsed =
      { r1 with
        validation_status := "valid"
        confidence_score :=
          (nameValidatorValidate parsed.first_name parsed.last_name).confidence } := by
  simp only [individualValidate, if_true]
  rw [if_pos hNE, if_pos hv]

/-- Delegation to the name validator, invalid result. -/
theorem individualValidate_val_invalid (r1 : ApiResult) (parsed : NameComponents)
    (hNE : parsed.first_name ≠ "" ∨ parsed.last_name ≠ "")
    (hv : (nameValidatorValidate parsed.first_name parsed.last_name).valid = false) :
    individualValidate true r1 parsed =
      { r1 with
        validation_status := "warning"
        confidence_score := 0.4
        warnings := r1.warnings ++
          (nameValidatorValidate parsed.first_name parsed.last_name).errors } := by
  simp only [individualValidate, if_true]
  rw [if_pos hNE, if_neg (by simp [hv])]

/-- Shape of `_process_api_record` when organization detection fires. -/
theorem processApiRecord_org_eq (hasValidator : Bool) (dictLoader : Option DictStore)
    (incl da vg vpt : Bool) (record : ApiRecord)
    (h : detectOrganizationApi (pyStrip record.name) (pyStrip record.party_type) = true) :
    processApiRecord hasValidator dictLoader incl da vg vpt record =
      partyTypeStep vpt (pyStrip record.party_type)
        (orgBranch (initResult record) (pyStrip record.name)) := by
  simp only [processApiRecord, h, if_true]

/-- Shape of `_process_api_record` in the individual branch with parsing
requested. -/
theorem processApiRecord_parse_eq (hasValidator : Bool) (dictLoader : Option DictStore)
    (incl da vg vpt : Bool) (record : ApiRecord)
    (hOrg : detectOrganizationApi (pyStrip record.name) (pyStrip record.party_type) = false)
    (hParse : pyUpper (pyStrip record.parseInd) = "Y" ∨ pyStrip record.parseInd = "") :
    processApiRecord hasValidator dictLoader incl da vg vpt record =
      partyTypeStep vpt (pyStrip record.party_type)
        (genderStep dictLoader vg (pyStrip record.gender)
          (parseIndividualNameApi (pyStrip record.name))
          (individualValidate hasValidator (parsedInitResult record)
            (parseIndividualNameApi (pyStrip record.name)))) := by
  simp only [processApiRecord, hOrg, Bool.false_eq_true, if_false]
  rw [if_pos hParse]
  rfl

/-! ## Claim theorems -/

/-- C5 counterexample: on an unloaded Dictionary Store, `predict_gender`
returns `""` for `"maria"`, not the `"F"` the claimed unconditional suffix
fallback would give. -/
theorem predict_gender_unloaded_counterexample :
    DictStore.predict_gender ⟨[], [], [], [], false⟩ "maria" = "" ∧
    ("" : String) ≠ "F" := ⟨rfl, by decide⟩

/-- C5 (amended): the Dictionary Store's `predict_gender` returns `""`
whenever the first name is empty or the store is unloaded (there is no
heuristic fallback when unloaded); when loaded it checks the male set, then
the female set, then predicts `"F"` exactly for cleaned names ending in `a`
(the source's list `a, ia, ana, ella` collapses to that), `"M"` for names
ending in `er`, `on` or `an`, and `""` otherwise. -/
theorem predict_gender_spec (store : DictStore) (first_name : String) :
    ((store.loaded = false ∨ first_name = "") →
      store.predict_gender first_name = "") ∧
    (store.loaded = true → first_name ≠ "" →
      (pyLower (pyStrip first_name) ∈ store.male_names →
        store.predict_gender first_name = "M") ∧
      (pyLower (pyStrip first_name) ∉ store.male_names →
        pyLower (pyStrip first_name) ∈ store.female_names →
        store.predict_gender first_name = "F") ∧
      (pyLower (pyStrip first_name) ∉ store.male_names →
        pyLower (pyStrip first_name) ∉ store.female_names →
        store.predict_gender first_name =
          (if pyEndsWith (pyLower (pyStrip first_name)) "a" = true then "F"
           else if pyEndsWithAny (pyLower (pyStrip first_name)) ["er", "on", "an"] = true
           then "M"
           else ""))) := by
  constructor
  · rintro (h | h) <;> simp [DictStore.predict_gender, h]
  · intro hl hne
    refine ⟨fun hm => ?_, fun hm hf => ?_, fun hm hf => ?_⟩
    · simp [DictStore.predict_gender, hl, hne, hm]
    · simp [DictStore.predict_gender, hl, hne, hm, hf]
    · simp only [DictStore.predict_gender, hl, hne, hm, hf]
      rw [endsWithAny_female_eq]
      simp [hm, hf]

/-- Concrete instance of `predict_gender_spec`: a loaded store with an empty
female set still predicts `"M"` for `"peter"` through the suffix rule. -/
theorem predict_gender_spec_witness :
    DictStore.predict_gender ⟨[], [], [], [], true⟩ "peter" = "M" := by
  have h := ((predict_gender_spec ⟨[], [], [], [], true⟩ "peter").2 rfl
    (by decide)).2.2 (by decide) (by decide)
  rw [h]
  decide

/-- C7: when the Dictionary Store is unloaded, `is_valid_first_name` and
`is_valid_last_name` accept every name (a configuration or IO failure never
rejects a name); when loaded, each is the case-insensitive, trimmed
membership test against its respective set. -/
theorem dict_store_fail_open (store : DictStore) (name : String) :
    (store.loaded = false →
      store.is_valid_first_name name = true ∧
      store.is_valid_last_name name = true) ∧
    (store.loaded = true →
      (store.is_valid_first_name name = true ↔
        pyLower (pyStrip name) ∈ store.first_names) ∧
      (store.is_valid_last_name name = true ↔
        pyLower (pyStrip name) ∈ store.last_names)) := by
  refine ⟨fun h => ?_, fun h => ?_⟩ <;>
    simp [DictStore.is_valid_first_name, DictStore.is_valid_last_name, h]

/-- Concrete instance of `dict_store_fail_open`: loading from no CSV files
leaves the store unloaded, and `is_valid_first_name "Zzzqx"` returns true. -/
theorem dict_store_fail_open_witness :
    (loadDictionaries []).loaded = false ∧
    (loadDictionaries []).is_valid_first_name "Zzzqx" = true := by
  have h := (dict_store_fail_open (loadDictionaries []) "Zzzqx").1 (by decide)
  exact ⟨by decide, h.1⟩

/-- C8: the secondary validator's `validate` is valid iff both trimmed names
are non-empty; a valid result carries confidence 0.8, an invalid one carries
confidence 0.0 with one accumulated error per missing field; the normalized
output title-cases both fields. -/
theorem name_validator_validate_spec (first_name last_name : String) :
    ((nameValidatorValidate first_name last_name).valid = true ↔
      (pyStrip first_name ≠ "" ∧ pyStrip last_name ≠ "")) ∧
    ((nameValidatorValidate first_name last_name).valid = true →
      (nameValidatorValidate first_name last_name).confidence = 0.8) ∧
    ((nameValidatorValidate first_name last_name).valid = false →
      (nameValidatorValidate first_name last_name).confidence = 0.0 ∧
      (nameValidatorValidate first_name last_name).errors ≠ []) ∧
    (nameValidatorValidate first_name last_name).errors.length =
      ((if pyStrip first_name = "" then 1 else 0) +
        (if pyStrip last_name = "" then 1 else 0)) ∧
    (nameValidatorValidate first_name last_name).normalized_first =
      pyTitle (pyStrip first_name) ∧
    (nameValidatorValidate first_name last_name).normalized_last =
      pyTitle (pyStrip last_name) := by
  by_cases h1 : pyStrip first_name = "" <;> by_cases h2 : pyStrip last_name = "" <;>
    by_cases h3 : first_name = "" <;> by_cases h4 : last_name = "" <;>
    simp_all [nameValidatorValidate, pyStrip_empty, pyTitle_empty]

/-- Concrete instance of `name_validator_validate_spec`. -/
theorem name_validator_validate_spec_witness :
    (nameValidatorValidate "john" "smith").valid = true ∧
    (nameValidatorValidate "john" "smith").confidence = 0.8 := by
  have h := name_validator_validate_spec "john" "smith"
  have hv : (nameValidatorValidate "john" "smith").valid = true :=
    h.1.mpr ⟨by decide, by decide⟩
  exact ⟨hv, h.2.1 hv⟩

/-- C10: after `load_dictionaries`, every entry in the first-name and
last-name sets has length at least 2 (single-character names are discarded),
consists only of lower-case letters, hyphens and apostrophes, and is fixed by
lower-casing. -/
theorem load_dictionaries_entries_invariant (files : List CsvFile) (n : String)
    (h : n ∈ (loadDictionaries files).first_names ∨
         n ∈ (loadDictionaries files).last_names) :
    2 ≤ n.length ∧
    (∀ c ∈ n.data, ('a' ≤ c ∧ c ≤ 'z') ∨ c = '-' ∨ c = '\'') ∧
    pyLower n = n := by
  have h' : n ∈ (List.foldl processCsvFile
      { first_names := [], last_names := [], male_names := [], female_names := [],
        loaded := false } files).first_names ∨
      n ∈ (List.foldl processCsvFile
      { first_names := [], last_names := [], male_names := [], female_names := [],
        loaded := false } files).last_names := by
    simpa [loadDictionaries] using h
  have hv : isValidNameEntry n = true :=
    foldl_processCsvFile_invariant files _ (by simp) n h'
  simp only [isValidNameEntry, Bool.and_eq_true, decide_eq_true_eq, List.all_eq_true] at hv
  obtain ⟨⟨⟨hne, hlen⟩, _⟩, hall⟩ := hv
  have hcls : ∀ c ∈ n.data, ('a' ≤ c ∧ c ≤ 'z') ∨ c = '-' ∨ c = '\'' := by
    intro c hc
    have := hall c hc
    simpa [Bool.or_eq_true, Bool.and_eq_true, decide_eq_true_eq, or_assoc] using this
  refine ⟨?_, hcls, ?_⟩
  · omega
  · show String.mk (n.data.map Char.toLower) = n
    rw [map_toLower_fixed n.data hcls]

/-- Concrete instance of `load_dictionaries_entries_invariant`: loading a
`first`-bucketed file keeps `anna` (and the theorem's invariant applies to
it), while `X` and `J.R.` are discarded. -/
theorem load_dictionaries_entries_invariant_witness :
    ("anna" ∈ (loadDictionaries [⟨"first_names.csv", ["Anna", "X", "J.R."]⟩]).first_names ∨
      "anna" ∈ (loadDictionaries [⟨"first_names.csv", ["Anna", "X", "J.R."]⟩]).last_names) ∧
    2 ≤ ("anna" : String).length ∧ pyLower "anna" = "anna" := by
  have hmem : ("anna" ∈ (loadDictionaries
      [⟨"first_names.csv", ["Anna", "X", "J.R."]⟩]).first_names ∨
      "anna" ∈ (loadDictionaries
      [⟨"first_names.csv", ["Anna", "X", "J.R."]⟩]).last_names) := by
    left; decide
  have h := load_dictionaries_entries_invariant
    [⟨"first_names.csv", ["Anna", "X", "J.R."]⟩] "anna" hmem
  exact ⟨hmem, h.1, h.2.2⟩

/-- C1: every record whose classification takes the organization branch gets
`party_type = "O"`, `gender = ""`, `parse_indicator = "N"`, the trimmed name
as `organization_name` with empty person-name components, and confidence 0.9,
regardless of the caller's parse-indicator and gender hints. -/
theorem org_branch_fields (hasValidator : Bool) (dictLoader : Option DictStore)
    (incl da vg vpt : Bool) (record : ApiRecord)
    (h : detectOrganizationApi (pyStrip record.name) (pyStrip record.party_type) = true) :
    (processApiRecord hasValidator dictLoader incl da vg vpt record).party_type = "O" ∧
    (processApiRecord hasValidator dictLoader incl da vg vpt record).gender = "" ∧
    (processApiRecord hasValidator dictLoader incl da vg vpt record).parse_indicator = "N" ∧
    (processApiRecord hasValidator dictLoader incl da vg vpt
        record).parsed_components.organization_name = pyStrip record.name ∧
    (processApiRecord hasValidator dictLoader incl da vg vpt
        record).parsed_components.first_name = "" ∧
    (processApiRecord hasValidator dictLoader incl da vg vpt
        record).parsed_components.last_name = "" ∧
    (processApiRecord hasValidator dictLoader incl da vg vpt
        record).parsed_components.middle_name = "" ∧
    (processApiRecord hasValidator dictLoader incl da vg vpt
        record).confidence_score = 0.9 := by
  rw [processApiRecord_org_eq hasValidator dictLoader incl da vg vpt record h]
  obtain ⟨p1, p2, p3, p4, p5, p6, p7, p8⟩ :=
    partyTypeStep_fields vpt (pyStrip record.party_type)
      (orgBranch (initResult record) (pyStrip record.name))
  refine ⟨?_, ?_, ?_, ?_, ?_, ?_, ?_, ?_⟩
  · rw [p3]; rfl
  · rw [p4]; rfl
  · rw [p5]; rfl
  · rw [p6]; rfl
  · rw [p6]; rfl
  · rw [p6]; rfl
  · rw [p6]; rfl
  · rw [p2]; rfl

/-- Concrete instance of `org_branch_fields` on the spec's scenario record,
with contrary parse-indicator and gender hints supplied. -/
theorem org_branch_fields_witness :
    (processApiRecord true none true true true true
        ⟨"1", "TechCorp Solutions LLC", "M", "", "Y"⟩).party_type = "O" ∧
    (processApiRecord true none true true true true
        ⟨"1", "TechCorp Solutions LLC", "M", "", "Y"⟩).gender = "" ∧
    (processApiRecord true none true true true true
        ⟨"1", "TechCorp Solutions LLC", "M", "", "Y"⟩).parse_indicator = "N" ∧
    (processApiRecord true none true true true true
        ⟨"1", "TechCorp Solutions LLC", "M", "", "Y"⟩).parsed_components.organization_name =
      pyStrip "TechCorp Solutions LLC" ∧
    (processApiRecord true none true true true true
        ⟨"1", "TechCorp Solutions LLC", "M", "", "Y"⟩).confidence_score = 0.9 := by
  have h := org_branch_fields true none true true true true
    ⟨"1", "TechCorp Solutions LLC", "M", "", "Y"⟩ (by decide)
  exact ⟨h.1, h.2.1, h.2.2.1, h.2.2.2.1, h.2.2.2.2.2.2.2⟩

/-- C2: `_parse_individual_name_api` drops every token whose lower-cased,
trailing-period-stripped form is a title or suffix, then assigns the
remaining tokens positionally (0 → all empty, 1 → first, 2 → first/last,
3+ → first, last, and the middle joined by single spaces); in particular
`"Dr. John Smith Jr"` parses to first `"John"`, last `"Smith"`. -/
theorem parse_positional_spec :
    (∀ full_name : String, parseIndividualNameApi full_name = claimedParse full_name) ∧
    parseIndividualNameApi "Dr. John Smith Jr" = ⟨"John", "Smith", ""⟩ := by
  constructor
  · intro fn
    by_cases h : pyStrip fn = ""
    · simp only [parseIndividualNameApi, claimedParse, h]
      rfl
    · simp only [parseIndividualNameApi, claimedParse, if_neg h]
      generalize (pySplit (pyStrip fn)).filter _ = l
      rcases l with _ | ⟨a, _ | ⟨b, _ | ⟨c, rest⟩⟩⟩ <;> rfl
  · decide

/-- C3: an explicit party-type hint is authoritative for
`_detect_organization_api`: hint `"I"` forces false (and the record is
classified as an individual), hint `"O"` forces true, and keyword substring
detection is consulted only for other hints. -/
theorem org_hint_authoritative (name hint : String) (hasValidator : Bool)
    (dictLoader : Option DictStore) (incl da vg vpt : Bool) (record : ApiRecord) :
    detectOrganizationApi name "I" = false ∧
    detectOrganizationApi name "O" = true ∧
    ((pyUpper hint ≠ "I" ∧ pyUpper hint ≠ "O") →
      detectOrganizationApi name hint =
        orgIndicators.any (fun indicator => strContains (pyLower name) indicator)) ∧
    (pyStrip record.party_type = "I" →
      (processApiRecord hasValidator dictLoader incl da vg vpt record).party_type = "I") := by
  refine ⟨rfl, rfl, ?_, ?_⟩
  · rintro ⟨h1, h2⟩
    simp [detectOrganizationApi, h1, h2]
  · intro h
    have hd : detectOrganizationApi (pyStrip record.name) (pyStrip record.party_type) = false := by
      rw [h]
      rfl
    simp only [processApiRecord, hd, Bool.false_eq_true, if_false]
    rw [(partyTypeStep_fields _ _ _).2.2.1]
    split
    · rw [(genderStep_fields _ _ _ _ _).2.2.1, (individualValidate_fields _ _ _).1]
    · rfl

/-- Concrete instance of `org_hint_authoritative`: a non-`I`/`O` hint falls
back to keyword detection, and hint `"I"` forces an individual record even
for a keyword-bearing name. -/
theorem org_hint_authoritative_witness :
    detectOrganizationApi "Mercy Hospital" "X" =
      orgIndicators.any (fun indicator => strContains (pyLower "Mercy Hospital") indicator) ∧
    (processApiRecord true none true true true true
        ⟨"7", "Acme Hospital", "", "I", "Y"⟩).party_type = "I" := by
  have h := org_hint_authoritative "Mercy Hospital" "X" true none true true true true
    ⟨"7", "Acme Hospital", "", "I", "Y"⟩
  exact ⟨h.2.2.1 ⟨by decide, by decide⟩, h.2.2.2 (by decide)⟩

/-- C4 counterexample: for the batch input
`[{uniqueid:"2", name:"", parseInd:"Y"}]`, `validate_api_records` raises
`name is required` at the record boundary: the single result has
`validation_status = "error"` (not `"invalid"`) and confidence 0.0
(not 0.2). -/
theorem empty_name_record_counterexample :
    (validateApiRecords true none true true true true
        [⟨"2", "", "", "", "Y"⟩]).results.map (fun r => r.validation_status) = ["error"] ∧
    (validateApiRecords true none true true true true
        [⟨"2", "", "", "", "Y"⟩]).results.map (fun r => r.confidence_score) = [0] ∧
    ("error" : String) ≠ "invalid" ∧ (0 : ℚ) ≠ 0.2 :=
  ⟨rfl, rfl, by decide, by norm_num⟩

/-- C4 (amended): for the batch input
`[{uniqueid:"2", name:"", parseInd:"Y"}]`, the single result record has
`validation_status = "error"`, the sole error `"name is required"`, and
confidence 0.0. -/
theorem empty_name_record_error :
    validateApiRecords true none true true true true [⟨"2", "", "", "", "Y"⟩] =
      { status := "success"
        processed_count := 1
        successful_count := 0
        results := [{ uniqueid := "2", name := "", gender := "", party_type := ""
                      parse_indicator := "", validation_status := "error"
                      confidence_score := 0, parsed_components := emptyParsed
                      suggestions := emptySuggestions
                      errors := ["name is required"], warnings := [] }] } := rfl

/-- C6 counterexample: with no name-validator wired in, an individual record
with a parsable name gets confidence 0.7, not the claimed 0.8. -/
theorem individual_confidence_counterexample :
    (processApiRecord false none true true true true
        ⟨"1", "John Smith", "", "", "Y"⟩).validation_status = "valid" ∧
    (processApiRecord false none true true true true
        ⟨"1", "John Smith", "", "", "Y"⟩).confidence_score = 0.7 ∧
    (0.7 : ℚ) ≠ 0.8 :=
  ⟨rfl, rfl, by norm_num⟩

/-- C6 (amended): in the individual branch with parsing enabled, when the
parsed components have a non-empty first or last name: with no name-validator
wired in the record is `"valid"` with confidence 0.7; with the validator, a
valid validate result gives status `"valid"` and the validator's confidence,
while an invalid one gives status `"warning"`, confidence 0.4, and the
validator's error messages appended as warnings. -/
theorem individual_parse_validation (dictLoader : Option DictStore)
    (incl da vg vpt : Bool) (record : ApiRecord)
    (hOrg : detectOrganizationApi (pyStrip record.name) (pyStrip record.party_type) = false)
    (hParse : pyUpper (pyStrip record.parseInd) = "Y" ∨ pyStrip record.parseInd = "")
    (hNE : (parseIndividualNameApi (pyStrip record.name)).first_name ≠ "" ∨
      (parseIndividualNameApi (pyStrip record.name)).last_name ≠ "") :
    ((processApiRecord false dictLoader incl da vg vpt record).validation_status = "valid" ∧
      (processApiRecord false dictLoader incl da vg vpt record).confidence_score = 0.7) ∧
    ((nameValidatorValidate (parseIndividualNameApi (pyStrip record.name)).first_name
        (parseIndividualNameApi (pyStrip record.name)).last_name).valid = true →
      (processApiRecord true dictLoader incl da vg vpt record).validation_status = "valid" ∧
      (processApiRecord true dictLoader incl da vg vpt record).confidence_score =
        (nameValidatorValidate (parseIndividualNameApi (pyStrip record.name)).first_name
          (parseIndividualNameApi (pyStrip record.name)).last_name).confidence) ∧
    ((nameValidatorValidate (parseIndividualNameApi (pyStrip record.name)).first_name
        (parseIndividualNameApi (pyStrip record.name)).last_name).valid = false →
      (processApiRecord true dictLoader incl da vg vpt record).validation_status = "warning" ∧
      (processApiRecord true dictLoader incl da vg vpt record).confidence_score = 0.4 ∧
      (processApiRecord true dictLoader incl da vg vpt record).warnings =
        (nameValidatorValidate (parseIndividualNameApi (pyStrip record.name)).first_name
          (parseIndividualNameApi (pyStrip record.name)).last_name).errors) := by
  have e := fun hv : Bool =>
    processApiRecord_parse_eq hv dictLoader incl da vg vpt record hOrg hParse
  refine ⟨⟨?_, ?_⟩, fun hval => ⟨?_, ?_⟩, fun hval => ⟨?_, ?_, ?_⟩⟩
  · rw [e false, (partyTypeStep_fields _ _ _).1, (genderStep_fields _ _ _ _ _).1,
      individualValidate_noVal _ _ hNE]
  · rw [e false, (partyTypeStep_fields _ _ _).2.1, (genderStep_fields _ _ _ _ _).2.1,
      individualValidate_noVal _ _ hNE]
  · rw [e true, (partyTypeStep_fields _ _ _).1, (genderStep_fields _ _ _ _ _).1,
      individualValidate_val_valid _ _ hNE hval]
  · rw [e true, (partyTypeStep_fields _ _ _).2.1, (genderStep_fields _ _ _ _ _).2.1,
      individualValidate_val_valid _ _ hNE hval]
  · rw [e true, (partyTypeStep_fields _ _ _).1, (genderStep_fields _ _ _ _ _).1,
      individualValidate_val_invalid _ _ hNE hval]
  · rw [e true, (partyTypeStep_fields _ _ _).2.1, (genderStep_fields _ _ _ _ _).2.1,
      individualValidate_val_invalid _ _ hNE hval]
  · rw [e true, (partyTypeStep_fields _ _ _).2.2.2.2.2.2.1,
      (genderStep_fields _ _ _ _ _).2.2.2.2.1,
      individualValidate_val_invalid _ _ hNE hval]
    simp [parsedInitResult, initResult]

/-- Concrete instance of `individual_parse_validation`: `"John Smith"` parses
and, with the validator wired in, inherits its confidence 0.8. -/
theorem individual_parse_validation_witness :
    (processApiRecord false none true true true true
        ⟨"1", "John Smith", "", "", "Y"⟩).confidence_score = 0.7 ∧
    (processApiRecord true none true true true true
        ⟨"1", "John Smith", "", "", "Y"⟩).validation_status = "valid" := by
  have h := individual_parse_validation none true true true true
    ⟨"1", "John Smith", "", "", "Y"⟩ (by decide) (Or.inl (by decide)) (by decide)
  exact ⟨h.1.2, (h.2.1 (by decide)).1⟩

/-- C9: the batch response of `validate_api_records` has
`processed_count = len(input)` and one result per input record; a failing
record-format check is converted at the record boundary into an error result
carrying the message as the sole error entry, never dropped. -/
theorem batch_preserves_count (hasValidator : Bool) (dictLoader : Option DictStore)
    (incl da vg vpt : Bool) (records : List ApiRecord) :
    (validateApiRecords hasValidator dictLoader incl da vg vpt records).processed_count =
      records.length ∧
    (validateApiRecords hasValidator dictLoader incl da vg vpt records).results.length =
      records.length ∧
    (∀ record : ApiRecord, record.uniqueid = "" →
      recordStep hasValidator dictLoader incl da vg vpt record =
        apiErrorResult record "uniqueid is required") ∧
    (∀ record : ApiRecord, record.uniqueid ≠ "" → record.name = "" →
      recordStep hasValidator dictLoader incl da vg vpt record =
        apiErrorResult record "name is required") ∧
    (∀ (record : ApiRecord) (msg : String),
      (apiErrorResult record msg).validation_status = "error" ∧
      (apiErrorResult record msg).confidence_score = 0 ∧
      (apiErrorResult record msg).errors = [msg]) := by
  refine ⟨by simp [validateApiRecords], by simp [validateApiRecords], ?_, ?_, ?_⟩
  · intro record h
    simp [recordStep, h]
  · intro record h1 h2
    simp [recordStep, h1, h2]
  · intro record msg
    exact ⟨rfl, rfl, rfl⟩

/-- Concrete instance of `batch_preserves_count`: a record with an empty
`uniqueid` is converted, not dropped. -/
theorem batch_preserves_count_witness :
    (validateApiRecords true none true true true true
        [⟨"", "John Smith", "", "", ""⟩]).processed_count = 1 ∧
    recordStep true none true true true true ⟨"", "John Smith", "", "", ""⟩ =
      apiErrorResult ⟨"", "John Smith", "", "", ""⟩ "uniqueid is required" := by
  have h := batch_preserves_count true none true true true true
    [⟨"", "John Smith", "", "", ""⟩]
  exact ⟨h.1, h.2.2.1 ⟨"", "John Smith", "", "", ""⟩ rfl⟩
